import Mathlib

/-!
Verification of the Game-of-Life grid engine from `src/lib.rs` of
`tyt2y3/wasm_game_of_life`.

The engine is a flat, row-major cell buffer with toroidal neighbor
wrapping.  Machine integers (`u32`, `usize`) are modelled as `Nat`:
every claim hypothesises in-range coordinates and positive dimensions,
under which all Rust arithmetic here is overflow- and underflow-free.
Vector indexing `self.cells[idx]` is modelled by `List.getD` with
default `Cell.Dead`; the bounds theorems show every index the engine
computes is in range, so the default branch is never taken.
-/

namespace GameOfLife

/-- The cell type from `lib.rs`: `Dead = 0`, `Alive = 1`. -/
inductive Cell where
  | Dead : Cell
  | Alive : Cell
deriving DecidableEq, Repr

/-- The `u8` discriminant of a `Cell` (`cell as u8`). -/
def Cell.toNat : Cell → Nat
  | Cell.Dead => 0
  | Cell.Alive => 1

/-- Rust `Cell::toggle`: flip `Dead` and `Alive`. -/
def Cell.toggle : Cell → Cell
  | Cell.Dead => Cell.Alive
  | Cell.Alive => Cell.Dead

/-- The `Universe` struct from `lib.rs`: `width`, `height` and the flat
row-major cell buffer. -/
structure Universe where
  width : Nat
  height : Nat
  cells : List Cell
deriving DecidableEq, Repr

namespace Universe

/-- Rust `Universe::get_index`: `(row * self.width + column) as usize`. -/
def get_index (u : Universe) (row column : Nat) : Nat :=
  row * u.width + column

/-- Reading `self.cells[i]`, total with default `Dead` (shown in-bounds
wherever the engine indexes). -/
def getCell (u : Universe) (i : Nat) : Cell :=
  u.cells.getD i Cell.Dead

/-- Rust `Universe::get_cells`: the whole buffer. -/
def get_cells (u : Universe) : List Cell :=
  u.cells

/-- Rust `Universe::set_cells`: for each `(row, col)` pair in order, set
that cell `Alive`. -/
def set_cells (u : Universe) (cs : List (Nat × Nat)) : Universe :=
  cs.foldl
    (fun v rc => { v with cells := v.cells.set (v.get_index rc.1 rc.2) Cell.Alive })
    u

/-- The local `north` of `Universe::live_neighbor_count`: wrap row 0 to
the bottom row. -/
def north (u : Universe) (row : Nat) : Nat :=
  if row = 0 then u.height - 1 else row - 1

/-- The local `south` of `Universe::live_neighbor_count`: wrap the bottom
row to row 0. -/
def south (u : Universe) (row : Nat) : Nat :=
  if row = u.height - 1 then 0 else row + 1

/-- The local `west` of `Universe::live_neighbor_count`: wrap column 0 to
the last column. -/
def west (u : Universe) (column : Nat) : Nat :=
  if column = 0 then u.width - 1 else column - 1

/-- The local `east` of `Universe::live_neighbor_count`: wrap the last
column to column 0. -/
def east (u : Universe) (column : Nat) : Nat :=
  if column = u.width - 1 then 0 else column + 1

/-- Rust `Universe::live_neighbor_count`: the sum of the eight wrapped
neighbor discriminants, in source order (nw, n, ne, w, e, sw, s, se). -/
def live_neighbor_count (u : Universe) (row column : Nat) : Nat :=
  let north := u.north row
  let south := u.south row
  let west := u.west column
  let east := u.east column
  (u.getCell (u.get_index north west)).toNat +
  (u.getCell (u.get_index north column)).toNat +
  (u.getCell (u.get_index north east)).toNat +
  (u.getCell (u.get_index row west)).toNat +
  (u.getCell (u.get_index row east)).toNat +
  (u.getCell (u.get_index south west)).toNat +
  (u.getCell (u.get_index south column)).toNat +
  (u.getCell (u.get_index south east)).toNat

/-- The ordered rule match inside `Universe::tick` (first match wins). -/
def nextCell (cell : Cell) (live_neighbors : Nat) : Cell :=
  if cell = Cell.Alive ∧ live_neighbors < 2 then Cell.Dead
  else if cell = Cell.Alive ∧ (live_neighbors = 2 ∨ live_neighbors = 3) then Cell.Alive
  else if cell = Cell.Alive ∧ live_neighbors > 3 then Cell.Dead
  else if cell = Cell.Dead ∧ live_neighbors = 3 then Cell.Alive
  else cell

/-- Rust `Universe::tick`: clone the buffer, write every cell's next state
into the clone reading neighbor counts from the old buffer, then
replace the buffer. -/
def tick (u : Universe) : Universe :=
  let next :=
    (List.range u.height).foldl
      (fun next row =>
        (List.range u.width).foldl
          (fun next col =>
            let idx := u.get_index row col
            next.set idx (nextCell (u.getCell idx) (u.live_neighbor_count row col)))
          next)
      u.cells
  { u with cells := next }

/-- Rust `Universe::new`: 128×128, cell `i` alive iff `i % 2 == 0 || i % 7 == 0`. -/
def new : Universe :=
  let width := 128
  let height := 128
  let cells :=
    (List.range (width * height)).map
      (fun i => if i % 2 = 0 ∨ i % 7 = 0 then Cell.Alive else Cell.Dead)
  { width := width, height := height, cells := cells }

/-- Rust `Universe::set_width`: replace the width and reset every cell to
`Dead` at the new size. -/
def set_width (u : Universe) (width : Nat) : Universe :=
  { u with width := width,
           cells := (List.range (width * u.height)).map (fun _ => Cell.Dead) }

/-- Rust `Universe::set_height`: replace the height and reset every cell to
`Dead` at the new size. -/
def set_height (u : Universe) (height : Nat) : Universe :=
  { u with height := height,
           cells := (List.range (u.width * height)).map (fun _ => Cell.Dead) }

/-- Rust `Universe::toggle_cell`: flip the cell at `(row, column)`. -/
def toggle_cell (u : Universe) (row column : Nat) : Universe :=
  let idx := u.get_index row column
  { u with cells := u.cells.set idx (u.getCell idx).toggle }

/-- Well-formedness: the buffer length is `width * height`. -/
def wf (u : Universe) : Prop :=
  u.cells.length = u.width * u.height

/-- Neighbor counting as the specification words it: the sum of the 0/1
cell values at the eight index combinations
`{north,row,south} × {west,column,east}` excluding the `(row,column)`
combination, with `north = height-1` when `row = 0` and otherwise
`row-1`, `south = 0` when `row = height-1` and otherwise `row+1`,
`west = width-1` when `column = 0` and otherwise `column-1`, and
`east = 0` when `column = width-1` and otherwise `column+1`. -/
def neighborCountSpec (u : Universe) (row column : Nat) : Nat :=
  let nr := if row = 0 then u.height - 1 else row - 1
  let sr := if row = u.height - 1 then 0 else row + 1
  let wc := if column = 0 then u.width - 1 else column - 1
  let ec := if column = u.width - 1 then 0 else column + 1
  (([(nr, wc), (nr, column), (nr, ec),
     (row, wc), (row, ec),
     (sr, wc), (sr, column), (sr, ec)].map
     (fun p => (u.getCell (u.get_index p.1 p.2)).toNat)).sum)

end Universe

/-! Helper lemmas about list updates and the write folds inside
`tick` and `set_cells`. -/

lemma getD_set_self (l : List Cell) {i : Nat} (hi : i < l.length) (a : Cell) :
    (l.set i a).getD i Cell.Dead = a := by
  rw [List.getD_eq_getElem?_getD, List.getElem?_set_self hi]
  rfl

lemma getD_set_ne (l : List Cell) {i j : Nat} (h : i ≠ j) (a : Cell) :
    (l.set i a).getD j Cell.Dead = l.getD j Cell.Dead := by
  rw [List.getD_eq_getElem?_getD, List.getElem?_set_ne h,
    ← List.getD_eq_getElem?_getD]

namespace Universe

lemma get_index_lt (u : Universe) (hwf : u.wf) {r c : Nat}
    (hr : r < u.height) (hc : c < u.width) :
    u.get_index r c < u.cells.length := by
  have h1 : r * u.width + c < (r + 1) * u.width := by
    rw [Nat.succ_mul]; omega
  have h2 : (r + 1) * u.width ≤ u.height * u.width :=
    Nat.mul_le_mul_right _ hr
  have h3 : u.height * u.width = u.width * u.height := Nat.mul_comm _ _
  unfold get_index
  rw [hwf]
  omega

lemma get_index_inj (u : Universe) {r c r' c' : Nat}
    (hc : c < u.width) (hc' : c' < u.width)
    (h : u.get_index r c = u.get_index r' c') : r = r' ∧ c = c' := by
  have hw : 0 < u.width := Nat.lt_of_le_of_lt (Nat.zero_le c) hc
  unfold get_index at h
  have e : ∀ (a b : Nat), b < u.width → (a * u.width + b) / u.width = a := by
    intro a b hb
    rw [Nat.mul_comm a u.width, Nat.mul_add_div hw, Nat.div_eq_of_lt hb,
      Nat.add_zero]
  have hrr : r = r' := by
    have h2 := congrArg (· / u.width) h
    simpa [e r c hc, e r' c' hc'] using h2
  subst hrr
  exact ⟨rfl, Nat.add_left_cancel h⟩

end Universe

lemma foldl_set_range_length (base w : Nat) (v : Nat → Cell) :
    ∀ (nx : List Cell),
      ((List.range w).foldl (fun nx c => nx.set (base + c) (v c)) nx).length
        = nx.length := by
  induction w with
  | zero => intro nx; rfl
  | succ w ih =>
    intro nx
    simp only [List.range_succ, List.foldl_append, List.foldl_cons,
      List.foldl_nil, List.length_set]
    exact ih nx

lemma foldl_set_range_lo (base w : Nat) (v : Nat → Cell) {j : Nat}
    (hj : j < base) :
    ∀ (nx : List Cell),
      ((List.range w).foldl (fun nx c => nx.set (base + c) (v c)) nx)[j]?
        = nx[j]? := by
  induction w with
  | zero => intro nx; rfl
  | succ w ih =>
    intro nx
    simp only [List.range_succ, List.foldl_append, List.foldl_cons,
      List.foldl_nil]
    rw [List.getElem?_set_ne (by omega)]
    exact ih nx

lemma foldl_set_range_hit (base w : Nat) (v : Nat → Cell) :
    ∀ (nx : List Cell) (k : Nat), k < w → base + w ≤ nx.length →
      ((List.range w).foldl (fun nx c => nx.set (base + c) (v c)) nx)[base + k]?
        = some (v k) := by
  induction w with
  | zero =>
    intro nx k hk
    exact absurd hk (Nat.not_lt_zero k)
  | succ w ih =>
    intro nx k hk hlen
    simp only [List.range_succ, List.foldl_append, List.foldl_cons,
      List.foldl_nil]
    rcases Nat.lt_or_ge k w with h | h
    · rw [List.getElem?_set_ne (by omega)]
      exact ih nx k h (by omega)
    · have hkw : k = w := by omega
      subst hkw
      apply List.getElem?_set_self
      rw [foldl_set_range_length base k v nx]
      omega

lemma tick_fold_length (w : Nat) (v : Nat → Nat → Cell) :
    ∀ (h : Nat) (nx : List Cell),
      ((List.range h).foldl
        (fun nx row => (List.range w).foldl
          (fun nx col => nx.set (row * w + col) (v row col)) nx) nx).length
        = nx.length := by
  intro h
  induction h with
  | zero => intro nx; rfl
  | succ h ih =>
    intro nx
    simp only [List.range_succ, List.foldl_append, List.foldl_cons,
      List.foldl_nil]
    rw [foldl_set_range_length (h * w) w (v h)]
    exact ih nx

lemma tick_fold_hit (w : Nat) (v : Nat → Nat → Cell) :
    ∀ (h : Nat) (nx : List Cell) (row col : Nat),
      row < h → col < w → h * w ≤ nx.length →
      ((List.range h).foldl
        (fun nx row => (List.range w).foldl
          (fun nx col => nx.set (row * w + col) (v row col)) nx) nx)[row * w + col]?
        = some (v row col) := by
  intro h
  induction h with
  | zero =>
    intro nx row col hr
    exact absurd hr (Nat.not_lt_zero row)
  | succ h ih =>
    intro nx row col hr hc hlen
    simp only [List.range_succ, List.foldl_append, List.foldl_cons,
      List.foldl_nil]
    have hlen' : h * w ≤ nx.length := by
      rw [Nat.succ_mul] at hlen; omega
    rcases Nat.lt_or_ge row h with h1 | h1
    · have hjlt : row * w + col < h * w := by
        have : (row + 1) * w ≤ h * w := Nat.mul_le_mul_right _ h1
        rw [Nat.succ_mul] at this
        omega
      rw [foldl_set_range_lo (h * w) w (v h) hjlt]
      exact ih nx row col h1 hc hlen'
    · have hrh : row = h := by omega
      subst hrh
      apply foldl_set_range_hit (row * w) w (v row) _ col hc
      rw [tick_fold_length w v row nx]
      rw [Nat.succ_mul] at hlen
      omega

namespace Universe

lemma tick_cells_length (u : Universe) : (u.tick).cells.length = u.cells.length :=
  tick_fold_length u.width
    (fun r c => nextCell (u.getCell (u.get_index r c)) (u.live_neighbor_count r c))
    u.height u.cells

lemma tick_getCell (u : Universe) (hwf : u.wf) {row col : Nat}
    (hr : row < u.height) (hc : col < u.width) :
    (u.tick).getCell (u.get_index row col)
      = nextCell (u.getCell (u.get_index row col)) (u.live_neighbor_count row col) := by
  have hlen : u.height * u.width ≤ u.cells.length := by
    rw [hwf]
    exact Nat.le_of_eq (Nat.mul_comm _ _)
  have h := tick_fold_hit u.width
    (fun r c => nextCell (u.getCell (u.get_index r c)) (u.live_neighbor_count r c))
    u.height u.cells row col hr hc hlen
  have h2 : ((u.tick).cells)[u.get_index row col]?
      = some (nextCell (u.getCell (u.get_index row col)) (u.live_neighbor_count row col)) := h
  unfold getCell
  rw [List.getD_eq_getElem?_getD, h2]
  rfl

lemma set_cells_cons (u : Universe) (p : Nat × Nat) (cs : List (Nat × Nat)) :
    u.set_cells (p :: cs)
      = Universe.set_cells
          { u with cells := u.cells.set (u.get_index p.1 p.2) Cell.Alive } cs := rfl

lemma set_cells_dims : ∀ (cs : List (Nat × Nat)) (u : Universe),
    (u.set_cells cs).width = u.width ∧ (u.set_cells cs).height = u.height ∧
    (u.set_cells cs).cells.length = u.cells.length := by
  intro cs
  induction cs with
  | nil => exact fun u => ⟨rfl, rfl, rfl⟩
  | cons p cs ih =>
    intro u
    obtain ⟨h1, h2, h3⟩ :=
      ih { u with cells := u.cells.set (u.get_index p.1 p.2) Cell.Alive }
    rw [set_cells_cons]
    exact ⟨h1, h2, h3.trans (List.length_set u.cells _ _)⟩

end Universe

/-! The claims. -/

/-- C5: `new()` always succeeds and returns a 128×128 grid whose cell at
every flat index `i` is `Alive` if `i % 2 == 0 || i % 7 == 0` and `Dead`
otherwise. -/
theorem new_default_grid :
    Universe.new.width = 128 ∧ Universe.new.height = 128 ∧
    Universe.new.get_cells.length = 128 * 128 ∧
    (∀ i, i < 128 * 128 →
      Universe.new.getCell i =
        if i % 2 = 0 ∨ i % 7 = 0 then Cell.Alive else Cell.Dead) := by
  have hcells : Universe.new.cells
      = (List.range (128 * 128)).map
          (fun i => if i % 2 = 0 ∨ i % 7 = 0 then Cell.Alive else Cell.Dead) := by
    simp only [Universe.new]
  refine ⟨rfl, rfl, ?_, ?_⟩
  · show Universe.new.cells.length = 128 * 128
    rw [hcells, List.length_map, List.length_range]
  · intro i hi
    unfold Universe.getCell
    rw [hcells, List.getD_eq_getElem?_getD, List.getElem?_map,
      List.getElem?_range hi]
    rfl

/-- Witness for C5: index 3 of the default grid is `Dead` (3 is odd and
not a multiple of 7). -/
theorem new_default_grid_witness : Universe.new.getCell 3 = Cell.Dead := by
  have h := new_default_grid.2.2.2 3 (by norm_num)
  simpa using h

/-- C4: `set_width(w)` makes the grid report width `w`, keeps the height,
and replaces the whole buffer with an all-`Dead` buffer of size
`w * height`; `set_height(h)` symmetrically. -/
theorem set_width_set_height_reset (u : Universe) (w h : Nat) :
    (u.set_width w).width = w ∧ (u.set_width w).height = u.height ∧
    (u.set_width w).get_cells = List.replicate (w * u.height) Cell.Dead ∧
    (u.set_height h).height = h ∧ (u.set_height h).width = u.width ∧
    (u.set_height h).get_cells = List.replicate (u.width * h) Cell.Dead := by
  refine ⟨rfl, rfl, ?_, rfl, rfl, ?_⟩
  · show (List.range (w * u.height)).map (fun _ => Cell.Dead)
        = List.replicate (w * u.height) Cell.Dead
    rw [List.map_const', List.length_range]
  · show (List.range (u.width * h)).map (fun _ => Cell.Dead)
        = List.replicate (u.width * h) Cell.Dead
    rw [List.map_const', List.length_range]

/-- C2: on a well-formed grid with in-range coordinates the engine's
live-neighbor count equals the spec-side sum over the eight wrapped
combinations with true toroidal wrap. -/
theorem live_neighbor_count_matches_spec (u : Universe) (hwf : u.wf)
    (row col : Nat) (hr : row < u.height) (hc : col < u.width) :
    u.live_neighbor_count row col = u.neighborCountSpec row col := by
  unfold Universe.live_neighbor_count Universe.neighborCountSpec
    Universe.north Universe.south Universe.west Universe.east
  simp only [List.map_cons, List.map_nil, List.sum_cons, List.sum_nil]
  omega

/-- Witness for C2: the two counts agree at cell (1,1) of a concrete 3×3
grid. -/
theorem live_neighbor_count_matches_spec_witness :
    (Universe.mk 3 3
      [Cell.Alive, Cell.Dead, Cell.Alive,
       Cell.Dead, Cell.Alive, Cell.Dead,
       Cell.Alive, Cell.Dead, Cell.Dead]).live_neighbor_count 1 1
      = (Universe.mk 3 3
      [Cell.Alive, Cell.Dead, Cell.Alive,
       Cell.Dead, Cell.Alive, Cell.Dead,
       Cell.Alive, Cell.Dead, Cell.Dead]).neighborCountSpec 1 1 :=
  live_neighbor_count_matches_spec _ (by exact rfl) 1 1 (by norm_num) (by norm_num)

/-- C8: on a well-formed grid, the flat index of an in-range cell and the
indices of all eight wrapped neighbor combinations are strictly below
the buffer length, so no indexing in `tick`, `live_neighbor_count` or
the accessors can reach the out-of-bounds branch. -/
theorem engine_indices_in_bounds (u : Universe) (hwf : u.wf)
    (row col : Nat) (hr : row < u.height) (hc : col < u.width) :
    u.get_index row col < u.get_cells.length ∧
    u.get_index (u.north row) (u.west col) < u.get_cells.length ∧
    u.get_index (u.north row) col < u.get_cells.length ∧
    u.get_index (u.north row) (u.east col) < u.get_cells.length ∧
    u.get_index row (u.west col) < u.get_cells.length ∧
    u.get_index row (u.east col) < u.get_cells.length ∧
    u.get_index (u.south row) (u.west col) < u.get_cells.length ∧
    u.get_index (u.south row) col < u.get_cells.length ∧
    u.get_index (u.south row) (u.east col) < u.get_cells.length := by
  have hh : 0 < u.height := Nat.lt_of_le_of_lt (Nat.zero_le row) hr
  have hw : 0 < u.width := Nat.lt_of_le_of_lt (Nat.zero_le col) hc
  have hn : u.north row < u.height := by
    unfold Universe.north; split <;> omega
  have hs : u.south row < u.height := by
    unfold Universe.south; split <;> omega
  have hwe : u.west col < u.width := by
    unfold Universe.west; split <;> omega
  have he : u.east col < u.width := by
    unfold Universe.east; split <;> omega
  exact ⟨u.get_index_lt hwf hr hc,
    u.get_index_lt hwf hn hwe, u.get_index_lt hwf hn hc,
    u.get_index_lt hwf hn he, u.get_index_lt hwf hr hwe,
    u.get_index_lt hwf hr he, u.get_index_lt hwf hs hwe,
    u.get_index_lt hwf hs hc, u.get_index_lt hwf hs he⟩

/-- Witness for C8: all nine indices are in bounds at cell (0,1) of a
concrete 2×3 grid. -/
theorem engine_indices_in_bounds_witness :
    (Universe.mk 3 2
      [Cell.Alive, Cell.Dead, Cell.Alive,
       Cell.Dead, Cell.Alive, Cell.Dead]).get_index 0 1
      < (Universe.mk 3 2
      [Cell.Alive, Cell.Dead, Cell.Alive,
       Cell.Dead, Cell.Alive, Cell.Dead]).get_cells.length :=
  (engine_indices_in_bounds _ (by exact rfl) 0 1 (by norm_num) (by norm_num)).1

/-- C6: `toggle_cell(r,c)` flips exactly cell `(r,c)` between `Dead` and
`Alive`, leaves every other in-range cell unchanged, and leaves both
dimensions unchanged. -/
theorem toggle_cell_flips_only_target (u : Universe) (hwf : u.wf)
    (r c : Nat) (hr : r < u.height) (hc : c < u.width) :
    (u.toggle_cell r c).width = u.width ∧
    (u.toggle_cell r c).height = u.height ∧
    (u.toggle_cell r c).getCell (u.get_index r c)
      = (u.getCell (u.get_index r c)).toggle ∧
    (∀ r' c', r' < u.height → c' < u.width → (r', c') ≠ (r, c) →
      (u.toggle_cell r c).getCell (u.get_index r' c')
        = u.getCell (u.get_index r' c')) ∧
    Cell.Dead.toggle = Cell.Alive ∧ Cell.Alive.toggle = Cell.Dead := by
  refine ⟨rfl, rfl, ?_, ?_, rfl, rfl⟩
  · show (u.cells.set (u.get_index r c)
        ((u.getCell (u.get_index r c)).toggle)).getD (u.get_index r c) Cell.Dead
      = (u.getCell (u.get_index r c)).toggle
    exact getD_set_self u.cells (u.get_index_lt hwf hr hc) _
  · intro r' c' hr' hc' hne
    show (u.cells.set (u.get_index r c)
        ((u.getCell (u.get_index r c)).toggle)).getD (u.get_index r' c') Cell.Dead
      = u.cells.getD (u.get_index r' c') Cell.Dead
    apply getD_set_ne
    intro heq
    obtain ⟨h1, h2⟩ := u.get_index_inj hc hc' heq
    exact hne (by rw [← h1, ← h2])

/-- Witness for C6: toggling cell (0,1) of a concrete 2×2 grid flips it
from `Dead` to `Alive`. -/
theorem toggle_cell_flips_only_target_witness :
    ((Universe.mk 2 2
      [Cell.Alive, Cell.Dead, Cell.Dead, Cell.Alive]).toggle_cell 0 1).getCell
        ((Universe.mk 2 2
      [Cell.Alive, Cell.Dead, Cell.Dead, Cell.Alive]).get_index 0 1)
      = ((Universe.mk 2 2
      [Cell.Alive, Cell.Dead, Cell.Dead, Cell.Alive]).getCell
        ((Universe.mk 2 2
      [Cell.Alive, Cell.Dead, Cell.Dead, Cell.Alive]).get_index 0 1)).toggle :=
  (toggle_cell_flips_only_target _ (by exact rfl) 0 1
    (by norm_num) (by norm_num)).2.2.1

/-- C3: on a well-formed grid every public operation leaves
`len(get_cells()) = width() * height()` true. -/
theorem length_invariant_all_ops (u : Universe) (hwf : u.wf) :
    Universe.new.get_cells.length = Universe.new.width * Universe.new.height ∧
    (u.tick).get_cells.length = (u.tick).width * (u.tick).height ∧
    (∀ r c, r < u.height → c < u.width →
      (u.toggle_cell r c).get_cells.length
        = (u.toggle_cell r c).width * (u.toggle_cell r c).height) ∧
    (∀ cs : List (Nat × Nat),
      (u.set_cells cs).get_cells.length
        = (u.set_cells cs).width * (u.set_cells cs).height) ∧
    (∀ w, (u.set_width w).get_cells.length
        = (u.set_width w).width * (u.set_width w).height) ∧
    (∀ h, (u.set_height h).get_cells.length
        = (u.set_height h).width * (u.set_height h).height) := by
  refine ⟨?_, ?_, ?_, ?_, ?_, ?_⟩
  · have hcells : Universe.new.cells
        = (List.range (128 * 128)).map
            (fun i => if i % 2 = 0 ∨ i % 7 = 0 then Cell.Alive else Cell.Dead) := by
      simp only [Universe.new]
    show Universe.new.cells.length = Universe.new.width * Universe.new.height
    rw [hcells, List.length_map, List.length_range]
    rfl
  · show (u.tick).cells.length = u.width * u.height
    rw [Universe.tick_cells_length]
    exact hwf
  · intro r c hr hc
    show (u.cells.set (u.get_index r c)
        ((u.getCell (u.get_index r c)).toggle)).length = u.width * u.height
    rw [List.length_set]
    exact hwf
  · intro cs
    obtain ⟨h1, h2, h3⟩ := Universe.set_cells_dims cs u
    show (u.set_cells cs).cells.length
      = (u.set_cells cs).width * (u.set_cells cs).height
    rw [h1, h2, h3]
    exact hwf
  · intro w
    show ((List.range (w * u.height)).map (fun _ => Cell.Dead)).length
      = w * u.height
    rw [List.length_map, List.length_range]
  · intro h
    show ((List.range (u.width * h)).map (fun _ => Cell.Dead)).length
      = u.width * h
    rw [List.length_map, List.length_range]

/-- Witness for C3: the invariant holds after `set_width 3` on a concrete
2×2 grid. -/
theorem length_invariant_all_ops_witness :
    ((Universe.mk 2 2
      [Cell.Dead, Cell.Alive, Cell.Dead, Cell.Dead]).set_width 3).get_cells.length
      = ((Universe.mk 2 2
      [Cell.Dead, Cell.Alive, Cell.Dead, Cell.Dead]).set_width 3).width
        * ((Universe.mk 2 2
      [Cell.Dead, Cell.Alive, Cell.Dead, Cell.Dead]).set_width 3).height :=
  (length_invariant_all_ops _ (by exact rfl)).2.2.2.2.1 3

/-- C7: `set_cells` sets exactly the listed in-range cells to `Alive`,
leaves every other cell and both dimensions unchanged; the result at a
cell depends only on list membership, so repeats and order are
irrelevant, and on an all-`Dead` grid exactly the listed cells end up
`Alive`. -/
theorem set_cells_sets_exactly_listed (cs : List (Nat × Nat)) :
    ∀ (u : Universe), u.wf → (∀ p ∈ cs, p.1 < u.height ∧ p.2 < u.width) →
      (u.set_cells cs).width = u.width ∧ (u.set_cells cs).height = u.height ∧
      (∀ r c, r < u.height → c < u.width →
        (u.set_cells cs).getCell (u.get_index r c)
          = if (r, c) ∈ cs then Cell.Alive else u.getCell (u.get_index r c)) := by
  induction cs with
  | nil =>
    intro u hwf hin
    refine ⟨rfl, rfl, ?_⟩
    intro r c hr hc
    rw [if_neg (List.not_mem_nil (r, c))]
    rfl
  | cons p cs ih =>
    obtain ⟨pr, pc⟩ := p
    intro u hwf hin
    have hp := hin (pr, pc) (List.mem_cons_self (pr, pc) cs)
    have hwf' : Universe.wf
        { u with cells := u.cells.set (u.get_index pr pc) Cell.Alive } := by
      show (u.cells.set (u.get_index pr pc) Cell.Alive).length
        = u.width * u.height
      rw [List.length_set]
      exact hwf
    have hin' : ∀ q ∈ cs, q.1 < u.height ∧ q.2 < u.width :=
      fun q hq => hin q (List.mem_cons_of_mem (pr, pc) hq)
    obtain ⟨h1, h2, h3⟩ :=
      ih { u with cells := u.cells.set (u.get_index pr pc) Cell.Alive } hwf' hin'
    refine ⟨h1, h2, ?_⟩
    intro r c hr hc
    have h3' := h3 r c hr hc
    by_cases hmem : (r, c) ∈ cs
    · rw [if_pos (List.mem_cons_of_mem (pr, pc) hmem)]
      rw [if_pos hmem] at h3'
      exact h3'
    · rw [if_neg hmem] at h3'
      by_cases heq : (r, c) = (pr, pc)
      · rw [if_pos (by rw [heq]; exact List.mem_cons_self (pr, pc) cs)]
        obtain ⟨e1, e2⟩ : r = pr ∧ c = pc := by simpa using heq
        subst e1
        subst e2
        have hval : Universe.getCell
            { u with cells := u.cells.set (u.get_index r c) Cell.Alive }
            (u.get_index r c) = Cell.Alive :=
          getD_set_self u.cells (u.get_index_lt hwf hr hc) _
        exact h3'.trans hval
      · rw [if_neg (by
          intro hmem'
          rcases List.mem_cons.mp hmem' with h | h
          · exact heq h
          · exact hmem h)]
        have hval : Universe.getCell
            { u with cells := u.cells.set (u.get_index pr pc) Cell.Alive }
            (u.get_index r c) = u.getCell (u.get_index r c) := by
          show (u.cells.set (u.get_index pr pc) Cell.Alive).getD
              (u.get_index r c) Cell.Dead
            = u.cells.getD (u.get_index r c) Cell.Dead
          apply getD_set_ne
          intro hidx
          obtain ⟨e1, e2⟩ := u.get_index_inj hp.2 hc hidx
          have e2' : pc = c := e2
          exact heq (by rw [e1, e2'])
        exact h3'.trans hval

/-- Witness for C7: setting cells (0,0) and (1,1) on an all-`Dead` 2×2
grid makes cell (0,0) `Alive`. -/
theorem set_cells_sets_exactly_listed_witness :
    ((Universe.mk 2 2
      [Cell.Dead, Cell.Dead, Cell.Dead, Cell.Dead]).set_cells
        [(0, 0), (1, 1)]).getCell
      ((Universe.mk 2 2
      [Cell.Dead, Cell.Dead, Cell.Dead, Cell.Dead]).get_index 0 0)
      = Cell.Alive := by
  have h := (set_cells_sets_exactly_listed [(0, 0), (1, 1)]
    (Universe.mk 2 2 [Cell.Dead, Cell.Dead, Cell.Dead, Cell.Dead])
    (by exact rfl) (by decide)).2.2 0 0 (by norm_num) (by norm_num)
  rw [h, if_pos (by decide)]

/-- C1: on a well-formed grid, `tick()` gives every in-range cell the
state determined by the enumerated rule applied to the cell's pre-tick
state and pre-tick live-neighbor count (the counts are read from the
old buffer, never from cells written during the same pass), and keeps
the dimensions and buffer length. -/
theorem tick_follows_rules_from_pre_state (u : Universe) (hwf : u.wf)
    (row col : Nat) (hr : row < u.height) (hc : col < u.width) :
    (u.tick).width = u.width ∧ (u.tick).height = u.height ∧
    (u.tick).get_cells.length = u.get_cells.length ∧
    ((u.tick).getCell (u.get_index row col) =
      (let cell := u.getCell (u.get_index row col)
       let n := u.live_neighbor_count row col
       if cell = Cell.Alive ∧ n < 2 then Cell.Dead
       else if cell = Cell.Alive ∧ (n = 2 ∨ n = 3) then Cell.Alive
       else if cell = Cell.Alive ∧ n > 3 then Cell.Dead
       else if cell = Cell.Dead ∧ n = 3 then Cell.Alive
       else cell)) :=
  ⟨rfl, rfl, Universe.tick_cells_length u, Universe.tick_getCell u hwf hr hc⟩

/-- Witness for C1: on a concrete 2×2 grid, cell (0,0) is `Alive` with 4
live neighbor slots and dies by overpopulation. -/
theorem tick_follows_rules_from_pre_state_witness :
    ((Universe.mk 2 2
      [Cell.Alive, Cell.Alive, Cell.Alive, Cell.Dead]).tick).getCell
        ((Universe.mk 2 2
      [Cell.Alive, Cell.Alive, Cell.Alive, Cell.Dead]).get_index 0 0)
      = Cell.Dead := by
  have h := (tick_follows_rules_from_pre_state
    (Universe.mk 2 2 [Cell.Alive, Cell.Alive, Cell.Alive, Cell.Dead])
    (by exact rfl) 0 0 (by norm_num) (by norm_num)).2.2.2
  exact h.trans (by decide)

/-- C9: the horizontal blinker (2,1), (2,2), (2,3) on an otherwise dead
5×5 grid returns to its original configuration after exactly 2 ticks:
two ticks restore it and one tick does not. -/
theorem blinker_period_exactly_two :
    (Universe.tick (Universe.tick (Universe.mk 5 5
      [Cell.Dead, Cell.Dead, Cell.Dead, Cell.Dead, Cell.Dead,
       Cell.Dead, Cell.Dead, Cell.Dead, Cell.Dead, Cell.Dead,
       Cell.Dead, Cell.Alive, Cell.Alive, Cell.Alive, Cell.Dead,
       Cell.Dead, Cell.Dead, Cell.Dead, Cell.Dead, Cell.Dead,
       Cell.Dead, Cell.Dead, Cell.Dead, Cell.Dead, Cell.Dead]))
      = Universe.mk 5 5
      [Cell.Dead, Cell.Dead, Cell.Dead, Cell.Dead, Cell.Dead,
       Cell.Dead, Cell.Dead, Cell.Dead, Cell.Dead, Cell.Dead,
       Cell.Dead, Cell.Alive, Cell.Alive, Cell.Alive, Cell.Dead,
       Cell.Dead, Cell.Dead, Cell.Dead, Cell.Dead, Cell.Dead,
       Cell.Dead, Cell.Dead, Cell.Dead, Cell.Dead, Cell.Dead]) ∧
    Universe.tick (Universe.mk 5 5
      [Cell.Dead, Cell.Dead, Cell.Dead, Cell.Dead, Cell.Dead,
       Cell.Dead, Cell.Dead, Cell.Dead, Cell.Dead, Cell.Dead,
       Cell.Dead, Cell.Alive, Cell.Alive, Cell.Alive, Cell.Dead,
       Cell.Dead, Cell.Dead, Cell.Dead, Cell.Dead, Cell.Dead,
       Cell.Dead, Cell.Dead, Cell.Dead, Cell.Dead, Cell.Dead])
      ≠ Universe.mk 5 5
      [Cell.Dead, Cell.Dead, Cell.Dead, Cell.Dead, Cell.Dead,
       Cell.Dead, Cell.Dead, Cell.Dead, Cell.Dead, Cell.Dead,
       Cell.Dead, Cell.Alive, Cell.Alive, Cell.Alive, Cell.Dead,
       Cell.Dead, Cell.Dead, Cell.Dead, Cell.Dead, Cell.Dead,
       Cell.Dead, Cell.Dead, Cell.Dead, Cell.Dead, Cell.Dead] := by
  constructor
  · decide
  · decide

/-- C10: on a 1×1 grid all eight wrapped neighbor combinations resolve to
flat index 0, the cell itself, so a lone `Alive` cell counts 8 live
neighbors and is killed by the overpopulation rule after one tick. -/
theorem one_by_one_counts_self_eight_times :
    (Universe.mk 1 1 [Cell.Alive]).north 0 = 0 ∧
    (Universe.mk 1 1 [Cell.Alive]).south 0 = 0 ∧
    (Universe.mk 1 1 [Cell.Alive]).west 0 = 0 ∧
    (Universe.mk 1 1 [Cell.Alive]).east 0 = 0 ∧
    (Universe.mk 1 1 [Cell.Alive]).get_index 0 0 = 0 ∧
    (Universe.mk 1 1 [Cell.Alive]).live_neighbor_count 0 0 = 8 ∧
    ((Universe.mk 1 1 [Cell.Alive]).tick).getCell 0 = Cell.Dead := by
  decide

end GameOfLife
